import Mathlib

/-!
Shallow embedding of the two USP adapters of this repository:
`usp_abnormal_security` (src/abnormal_security/client.go) and
`usp_darktrace` (src/unnamed/part_000).

Conventions of the embedding:
* Go `time.Time` values are modelled as `Int` timestamps — Unix seconds for the
  abnormal-security adapter (whose dedupe cache stores `parsedTime.Unix()`),
  Unix milliseconds for the darktrace adapter (which works in `UnixMilli`).
  `t.After(u)` is `u < t` and `t.Unix()` is the identity at this granularity.
* A vendor event (`utils.Dict`, Go `map[string]interface{}`) is an association
  list from field name to `GoValue`; a missing key yields `none`, matching the
  Go nil interface produced by a map lookup miss.
* `time.Parse` is an explicit function parameter `parseTime`; HTTP traffic is an
  explicit list of responses consumed in order; wall-clock `time.Now()` is an
  explicit `now` parameter where the source calls it.
* Fallible paths return `Option`/`Except`; `none` at the walk level means the
  supplied response list was exhausted while the code still wanted a page
  (a real run always receives another response from `doWithRetry`).
-/

/-- A Go `interface{}` value stored in a `utils.Dict`: either a string or some
non-string JSON value (numbers, arrays, objects are opaque to the adapter's
core logic, which only ever string-type-asserts these fields). -/
inductive GoValue where
  | vStr (s : String)
  | vOther
deriving DecidableEq, Repr

/-- A vendor event (`utils.Dict`). -/
abbrev Event := List (String × GoValue)

/-- A dedupe cache (`map[string]int64`): identifier to stored timestamp. -/
abbrev Dedupe := List (String × Int)

/-- Go map lookup `event[k]`: `none` models the nil interface for a miss. -/
def lookupField (e : Event) (k : String) : Option GoValue :=
  e.lookup k

/-- Go comparison `event[k] != ""`: a nil interface or a non-string value is
NOT equal to the string `""`; only an interface holding exactly `""` is. -/
def goStrNeqEmpty (v : Option GoValue) : Bool :=
  v != some (GoValue.vStr "")

/-- FNV-1a 64-bit hash over a byte sequence (hash/fnv `New64a`), with the
64-bit overflow made explicit. -/
def fnv64a (bs : List Nat) : Nat :=
  bs.foldl (fun h b => ((h ^^^ b) * 1099511628211) % (2 ^ 64)) 14695981039346656037

/-- Insert a field into a key-sorted field list (strict `<` on keys keeps the
serialization order-stable, as `encoding/json` sorts map keys). -/
def insertSorted (p : String × GoValue) : Event → Event
  | [] => [p]
  | q :: qs => if q.1 < p.1 then q :: insertSorted p qs else p :: q :: qs

/-- Sort an event's fields by key, modelling `encoding/json`'s sorted-key
marshaling of a Go map. -/
def sortFields (e : Event) : Event :=
  e.foldr insertSorted []

/-- JSON string escaping (quotes and backslashes; enough for the model). -/
def escapeChar (c : Char) : String :=
  if c = '"' then "\\\"" else if c = '\\' then "\\\\" else c.toString

/-- A JSON string literal. -/
def jsonString (s : String) : String :=
  "\"" ++ String.join (s.toList.map escapeChar) ++ "\""

/-- Serialize one field value; non-string values are opaque to the adapter, so
the model renders them with a fixed token. -/
def marshalValue : GoValue → String
  | GoValue.vStr s => jsonString s
  | GoValue.vOther => "null"

/-- `json.Marshal` of an event: order-stable (key-sorted) serialization. -/
def marshalEvent (e : Event) : String :=
  "\x7b" ++
    String.intercalate ","
      ((sortFields e).map (fun kv => jsonString kv.1 ++ ":" ++ marshalValue kv.2)) ++
    "\x7d"

/-- UTF-8 bytes of a string. -/
def strBytes (s : String) : List Nat :=
  s.toUTF8.toList.map (fun b => b.toNat)

/-- `fmt.Sprintf("%d", fnvHasher.Sum64())` over the marshaled event: the
content-hash identifier of client.go lines 440-450. -/
def computeHashId (e : Event) : String :=
  toString (fnv64a (strBytes (marshalEvent e)))

/-- Mutable state threaded through one walk's event filtering: the dedupe
cache, the admitted items so far, and `lastDetectionTime`. -/
structure PageState where
  dedupe : Dedupe
  newItems : List Event
  last : Int
deriving DecidableEq, Repr

/-- Result of one `getEvents` walk: `(allItems, lastDetectionTime, err)` plus
the dedupe cache the walk leaves behind. -/
structure WalkResult where
  items : List Event
  newSince : Int
  dedupe : Dedupe
  err : Bool
deriving DecidableEq, Repr

/-- One page of a paged-collection response: `GetDicts()` and `HasNextPage()`. -/
structure Page where
  dicts : List Event
  hasNextPage : Bool
deriving DecidableEq, Repr

/-- The occurrence-time the walk would parse for an event: the declared time
field must hold a string, which must parse. Used to state properties. -/
def eventTimeOf (parseTime : String → Option Int) (timeField : String) (e : Event) :
    Option Int :=
  match lookupField e timeField with
  | some (GoValue.vStr s) => parseTime s
  | _ => none

namespace AbnormalSecurity

/-- Identifier determination of client.go lines 430-451. The branch condition
is Go's `event[api.idField] != ""`: a missing key (nil) or a non-string value
satisfies it, after which the string type assertion fails and the event is
dropped (`none`); only a field holding exactly `""` reaches the content-hash
branch. -/
def determineId (idField : String) (event : Event) : Option String :=
  if goStrNeqEmpty (lookupField event idField) then
    match lookupField event idField with
    | some (GoValue.vStr s) => some s
    | _ => none
  else
    some (computeHashId event)

/-- Per-event filtering of client.go lines 429-472: determine the id, read the
time string, then — only if the id is unseen — parse the time and admit the
event iff it is strictly after `since`, inserting `parsedTime.Unix()` into the
dedupe cache and advancing `lastDetectionTime`. Any failed step drops the
event (warning) and leaves the state unchanged. -/
def processEvent (parseTime : String → Option Int) (idField timeField : String)
    (since : Int) (st : PageState) (event : Event) : PageState :=
  match determineId idField event with
  | none => st
  | some id =>
    match lookupField event timeField with
    | some (GoValue.vStr timeStr) =>
      if (st.dedupe.lookup id).isNone then
        match parseTime timeStr with
        | none => st
        | some t =>
          if since < t then
            { dedupe := (id, t) :: st.dedupe
              newItems := st.newItems ++ [event]
              last := if st.last < t then t else st.last }
          else st
      else st
    | _ => st

/-- Filter every event of one page in order. -/
def processPage (parseTime : String → Option Int) (idField timeField : String)
    (since : Int) (st : PageState) (pg : Page) : PageState :=
  pg.dicts.foldl (processEvent parseTime idField timeField since) st

/-- The pruning pass of the deferred function at client.go lines 393-399:
delete every dedupe entry whose stored value is `< since.Unix()` — the walk's
INPUT watermark, with no grace period. -/
def pruneDedupe (since : Int) (d : Dedupe) : Dedupe :=
  d.filter (fun kv => !(decide (kv.2 < since)))

/-- The page loop of `getEvents` (client.go lines 405-481), before the
deferred prune: consume responses in order; an executor error returns
`(nil, lastDetectionTime, err)`; a page without a next page ends the walk. -/
def getEventsGo (parseTime : String → Option Int) (idField timeField : String)
    (since : Int) : List (Except Unit Page) → PageState → Option WalkResult
  | [], _ => none
  | Except.error _ :: _, st =>
    some { items := [], newSince := st.last, dedupe := st.dedupe, err := true }
  | Except.ok pg :: rest, st =>
    let st' := processPage parseTime idField timeField since st pg
    if pg.hasNextPage then
      getEventsGo parseTime idField timeField since rest st'
    else
      some { items := st'.newItems, newSince := st'.last, dedupe := st'.dedupe, err := false }

/-- `getEvents` up to (but not including) the deferred prune. -/
def getEventsRaw (parseTime : String → Option Int) (idField timeField : String)
    (since : Int) (dedupe0 : Dedupe) (responses : List (Except Unit Page)) :
    Option WalkResult :=
  getEventsGo parseTime idField timeField since responses
    { dedupe := dedupe0, newItems := [], last := since }

/-- `getEvents` (client.go lines 388-484): the page loop followed by the
deferred prune, which runs on both the error and the success return. -/
def getEvents (parseTime : String → Option Int) (idField timeField : String)
    (since : Int) (dedupe0 : Dedupe) (responses : List (Except Unit Page)) :
    Option WalkResult :=
  (getEventsRaw parseTime idField timeField since dedupe0 responses).map
    (fun r => { r with dedupe := pruneDedupe since r.dedupe })

end AbnormalSecurity

namespace Darktrace

/-- Per-event filtering of part_000 lines 218-244: the identifier field must
hold a string (no content-hash fallback here), the time field must hold a
string, and — only if the id is unseen — the time is parsed and the event is
admitted iff strictly after `since`; on admission the dedupe cache stores the
CURRENT WALL-CLOCK time `time.Now().UTC().UnixMilli()` (the `now` parameter),
not the event's occurrence-time. -/
def processEvent (parseTime : String → Option Int) (idField timeField : String)
    (since now : Int) (st : PageState) (event : Event) : PageState :=
  match lookupField event idField with
  | some (GoValue.vStr id) =>
    match lookupField event timeField with
    | some (GoValue.vStr timeStr) =>
      if (st.dedupe.lookup id).isNone then
        match parseTime timeStr with
        | none => st
        | some t =>
          if since < t then
            { dedupe := (id, now) :: st.dedupe
              newItems := st.newItems ++ [event]
              last := if st.last < t then t else st.last }
          else st
      else st
    | _ => st
  | _ => st

/-- The pruning pass of the deferred function at part_000 lines 203-209:
delete every dedupe entry whose stored value is older than the walk's INPUT
watermark minus one minute (`time.UnixMilli(since).Add(-1*time.Minute)`). -/
def pruneDedupe (since : Int) (d : Dedupe) : Dedupe :=
  d.filter (fun kv => !(decide (kv.2 < since - 60000)))

/-- `getEvents` of part_000 lines 199-246: a single (unpaged) request; an
executor error returns `(nil, 0, err)` — the returned watermark slot is the
literal zero, not the input watermark; the deferred prune runs on both
returns. -/
def getEvents (parseTime : String → Option Int) (idField timeField : String)
    (since now : Int) (dedupe0 : Dedupe) (response : Except Unit (List Event)) :
    WalkResult :=
  match response with
  | Except.error _ =>
    { items := [], newSince := 0, dedupe := pruneDedupe since dedupe0, err := true }
  | Except.ok events =>
    let st := events.foldl (processEvent parseTime idField timeField since now)
      { dedupe := dedupe0, newItems := [], last := since }
    { items := st.newItems, newSince := st.last, dedupe := pruneDedupe since st.dedupe,
      err := false }

end Darktrace

/-- The per-source watermark update of both `fetchEvents` schedulers
(client.go lines 351-357, part_000 lines 183-189): on a walk error the stored
`since[api.key]` is left untouched (`continue`); otherwise it becomes the
walk's returned watermark. -/
def updateSince (stored : Int) (r : WalkResult) : Int :=
  if r.err then stored else r.newSince

/-- A signal the scheduler's `select` can wake on: the cancellation channel
(`<-a.ctx.Done()`) or the ticker (`<-ticker.C`). After cancellation the Done
channel is closed, so both arms stay eligible and the runtime may pick
either. -/
inductive SchedSignal where
  | done
  | tick
deriving DecidableEq, Repr

/-- One iteration of the abnormal-security `fetchEvents` loop (client.go
lines 341-385), as `(exitsLoop, runsPollCycle)`: the `ctx.Done()` arm only
logs — there is no `return` — so the loop never exits; the ticker arm runs a
full poll cycle. -/
def abnLoopStep : SchedSignal → Bool × Bool
  | SchedSignal.done => (false, false)
  | SchedSignal.tick => (false, true)

/-- One iteration of the darktrace `fetchEvents` loop (part_000 lines
172-196): the `ctx.Done()` arm logs and `return`s, exiting the loop; the
ticker arm runs a poll cycle. -/
def dtLoopStep : SchedSignal → Bool × Bool
  | SchedSignal.done => (true, false)
  | SchedSignal.tick => (false, true)

/-- Run a scheduler loop over a sequence of signals, returning how many poll
cycles executed and whether the loop exited. -/
def runLoop (step : SchedSignal → Bool × Bool) : List SchedSignal → Nat × Bool
  | [] => (0, false)
  | s :: rest =>
    match step s with
    | (true, _) => (0, true)
    | (false, polls) =>
      let (n, ex) := runLoop step rest
      ((if polls then 1 else 0) + n, ex)

/-- The parsed `Retry-After` header of a 429 response. -/
inductive RAHeader where
  | absent
  | numeric (n : Int)
  | date (t : Int)
  | malformed
deriving DecidableEq, Repr

namespace AbnormalSecurity

/-- Header classification of client.go lines 521-532: `(retryAfterInt,
retryAfterTime)`, where `none` models the zero `time.Time{}`. An absent or
unparseable header leaves both at their zero values; a numeric header sets
the int; an HTTP-date header sets the time. -/
def retryAfterState : RAHeader → Int × Option Int
  | RAHeader.absent => (0, none)
  | RAHeader.numeric n => (n, none)
  | RAHeader.date t => (0, some t)
  | RAHeader.malformed => (0, none)

/-- Backoff chosen for a 429 (client.go lines 540-557), in seconds: a nonzero
`retryAfterInt` wins; else a non-zero `retryAfterTime` sleeps `time.Until`
it; else the 60-second default. -/
def sleep429 (h : RAHeader) (now : Int) : Int :=
  match retryAfterState h with
  | (i, t?) =>
    if i ≠ 0 then i
    else
      match t? with
      | some t => t - now
      | none => 60

end AbnormalSecurity

namespace Darktrace

/-- Backoff chosen for a 429 (part_000 lines 305-310): always the 60-second
default — the `Retry-After` header is never read. -/
def sleep429 (_ : RAHeader) : Int := 60

end Darktrace

/-- Classified outcome of one HTTP attempt inside `doWithRetry`. -/
inductive HttpOutcome where
  | status429 (h : RAHeader)
  | status401
  | statusOther (code : Int)
  | ok200good
  | ok200badJson
  | transportErr
deriving DecidableEq, Repr

namespace AbnormalSecurity

/-- The retry loop of `doWithRetry` (client.go lines 486-585) over the
sequence of responses the network yields for the same URL: transport errors,
401, other non-200 statuses and undecodable 200 bodies return an error; a 429
sleeps (cancellably) and retries the same URL with no attempt cap; a good 200
returns the decoded body. `none` means the supplied response list ran out. -/
def doWithRetry : List HttpOutcome → Option (Except Unit Unit)
  | [] => none
  | HttpOutcome.transportErr :: _ => some (Except.error ())
  | HttpOutcome.status429 _ :: rest => doWithRetry rest
  | HttpOutcome.status401 :: _ => some (Except.error ())
  | HttpOutcome.statusOther _ :: _ => some (Except.error ())
  | HttpOutcome.ok200badJson :: _ => some (Except.error ())
  | HttpOutcome.ok200good :: _ => some (Except.ok ())

end AbnormalSecurity

/-- The abnormal-security configuration fields `Validate` inspects. -/
structure AbnConfig where
  accessToken : String
  baseURL : String
  clientOptionsOk : Bool
deriving DecidableEq, Repr

/-- The darktrace configuration fields `Validate` inspects. -/
structure DtConfig where
  url : String
  publicToken : String
  privateToken : String
  clientOptionsOk : Bool
deriving DecidableEq, Repr

/-- The default base URL of the abnormal-security adapter. -/
def defaultBaseURL : String := "https://api.abnormalplatform.com/v1"

namespace AbnormalSecurity

/-- `Validate` of client.go lines 105-116: an empty access token is an error,
but an empty base URL is NOT — it is silently replaced by the default. The
possibly-updated config is returned. -/
def Validate (c : AbnConfig) : Except String AbnConfig :=
  if !c.clientOptionsOk then Except.error "client_options"
  else if c.accessToken = "" then Except.error "missing access token"
  else if c.baseURL = "" then Except.ok { c with baseURL := defaultBaseURL }
  else Except.ok c

/-- `NewAbnormalSecurityAdapter` (client.go lines 59-103) starts the
background `fetchEvents` goroutine only after `Validate` and the USP-client
construction both succeed. -/
def NewAdapterStartsPolling (c : AbnConfig) (uspClientOk : Bool) : Bool :=
  match Validate c with
  | Except.error _ => false
  | Except.ok _ => uspClientOk

end AbnormalSecurity

namespace Darktrace

/-- `Validate` of part_000 lines 99-113: empty url, public token or private
token are each construction-time errors. -/
def Validate (c : DtConfig) : Except String DtConfig :=
  if !c.clientOptionsOk then Except.error "client_options"
  else if c.url = "" then Except.error "missing url"
  else if c.publicToken = "" then Except.error "missing public token"
  else if c.privateToken = "" then Except.error "missing private token"
  else Except.ok c

end Darktrace

/-- An error from `uspClient.Ship`: the named buffer-full backpressure signal
or any other error. -/
inductive ShipErr where
  | bufferFull
  | other
deriving DecidableEq, Repr

/-- Observable actions `submitEvents` takes for one event: the wait bounds of
the `Ship` calls issued (in seconds), whether the backpressure warning fired,
whether the error callback fired, and whether `Close` was initiated. -/
structure SubmitTrace where
  waits : List Int
  warned : Bool
  erroredCb : Bool
  closed : Bool
deriving DecidableEq, Repr

/-- Processing of one event by `submitEvents` (client.go lines 588-603 and
identically part_000 lines 328-343), driven by the outcome `ship w` of a
`Ship` call with wait bound `w` seconds: a first-call error other than
`ErrorBufferFull` is silently ignored (one call, no warning, no callback, no
shutdown); `ErrorBufferFull` warns and retries with a 1-hour wait, and only a
failure of that second call logs the error and triggers `Close`. -/
def submitOne (ship : Int → Option ShipErr) : SubmitTrace :=
  match ship 10 with
  | none => { waits := [10], warned := false, erroredCb := false, closed := false }
  | some ShipErr.bufferFull =>
    match ship 3600 with
    | none => { waits := [10, 3600], warned := true, erroredCb := false, closed := false }
    | some _ => { waits := [10, 3600], warned := true, erroredCb := true, closed := true }
  | some ShipErr.other =>
    { waits := [10], warned := false, erroredCb := false, closed := false }

/-- `submitEvents` over a batch: events are shipped in order; processing stops
(with `Close` initiated, result `true`) exactly when some event's
`submitOne` closes the adapter. -/
def submitEvents {α : Type} (ship : α → Int → Option ShipErr) : List α → Bool
  | [] => false
  | e :: rest =>
    if (submitOne (ship e)).closed then true else submitEvents ship rest

/-- Invariant maintained by the abnormal-security walk state: the running
`lastDetectionTime` is at least the input watermark, equals it while nothing
has been admitted, and otherwise is the occurrence-time of some admitted
event and an upper bound on all admitted occurrence-times. -/
def WalkInv (parseTime : String → Option Int) (timeField : String) (since : Int)
    (st : PageState) : Prop :=
  since ≤ st.last ∧
  (st.newItems = [] → st.last = since) ∧
  (st.newItems ≠ [] → ∃ e, e ∈ st.newItems ∧ eventTimeOf parseTime timeField e = some st.last) ∧
  (∀ e ∈ st.newItems, ∀ t, eventTimeOf parseTime timeField e = some t → t ≤ st.last)

/-- C1: the auditLogs source declares no identifier field (`idField: ""`), and
client.go's branch condition `event[api.idField] != ""` is satisfied by the
nil interface a missing key yields, so an event that genuinely lacks an
identifier field takes the string-id branch, fails the type assertion and is
dropped with a warning — it never receives the FNV-64a content-hash
identifier and is not admitted, even though its time parses and lies after
the watermark and the dedupe cache is empty. -/
theorem auditlogs_missing_id_dropped :
    AbnormalSecurity.determineId "" [("timestamp", GoValue.vStr "2024-01-01T00:00:10Z")] = none ∧
    AbnormalSecurity.getEvents (fun _ => some 10) "" "timestamp" 0 []
        [Except.ok { dicts := [[("timestamp", GoValue.vStr "2024-01-01T00:00:10Z")]],
                     hasNextPage := false }] =
      some { items := [], newSince := 0, dedupe := [], err := false } :=
  ⟨rfl, rfl⟩

/-- C2 counterexample: a two-page walk whose second page fails does NOT
return the original input watermark: page one admits an event at time 10, so
the error return carries `lastDetectionTime = 10`, not the input watermark 0
(client.go line 425 returns `lastDetectionTime`, not `since`). -/
theorem walk_error_returns_advanced_watermark_cex :
    AbnormalSecurity.getEvents (fun s => if s == "T" then some 10 else none)
        "campaignId" "receivedTime" 0 []
        [Except.ok { dicts := [[("campaignId", GoValue.vStr "A"),
                                ("receivedTime", GoValue.vStr "T")]],
                     hasNextPage := true },
         Except.error ()] =
      some { items := [], newSince := 10, dedupe := [("A", 10)], err := true } ∧
    (10 : Int) ≠ 0 :=
  ⟨rfl, by decide⟩

/-- C2 amended: when a walk ends in an error the scheduler leaves that
source's stored watermark at its pre-cycle value (the returned watermark is
discarded); the darktrace walk moreover returns the literal 0 with the error,
and that value too is discarded. -/
theorem scheduler_keeps_watermark_on_error (stored since now : Int)
    (parseTime : String → Option Int) (idField timeField : String)
    (d : Dedupe) (r : WalkResult) (herr : r.err = true) :
    updateSince stored r = stored ∧
    (Darktrace.getEvents parseTime idField timeField since now d (Except.error ())).err = true ∧
    (Darktrace.getEvents parseTime idField timeField since now d (Except.error ())).newSince = 0 ∧
    updateSince stored
        (Darktrace.getEvents parseTime idField timeField since now d (Except.error ())) =
      stored := by
  refine ⟨by simp [updateSince, herr], rfl, rfl, by simp [updateSince, Darktrace.getEvents]⟩

/-- Witness for the C2 amended theorem at a concrete errored walk result. -/
theorem scheduler_keeps_watermark_on_error_witness :
    updateSince 5 { items := [], newSince := 99, dedupe := [], err := true } = 5 :=
  (scheduler_keeps_watermark_on_error 5 0 0 (fun _ => none) "i" "t" []
    { items := [], newSince := 99, dedupe := [], err := true } rfl).1

/-- C3: after cancellation (a `done` signal), the abnormal-security
`fetchEvents` loop does not exit — its `ctx.Done()` arm has no `return` — and
a subsequent ticker signal still executes a full poll cycle (1 cycle run,
loop not exited), whereas the darktrace loop exits at once on `done` (0
cycles, exited). -/
theorem cancelled_loop_still_polls :
    runLoop abnLoopStep [SchedSignal.done, SchedSignal.tick] = (1, false) ∧
    runLoop dtLoopStep [SchedSignal.done, SchedSignal.tick] = (0, true) := by
  decide

/-- C6 counterexample: with input watermark 1000 and no admissions (so the
advanced watermark is also 1000), a dedupe entry stamped 999 is NOT older
than `advancedWatermark - 60`, yet the walk's pruning pass deletes it —
client.go line 395 compares against `since.Unix()` with no grace period. -/
theorem prune_uses_input_watermark_cex :
    AbnormalSecurity.getEvents (fun _ => none) "id" "t" 1000 [("old", 999)]
        [Except.ok { dicts := [], hasNextPage := false }] =
      some { items := [], newSince := 1000, dedupe := [], err := false } ∧
    ¬ ((999 : Int) < 1000 - 60) :=
  ⟨rfl, by decide⟩

/-- C7 counterexample: on a 429 carrying `Retry-After: 5`, the darktrace
executor sleeps its flat 60-second default, not the 5 seconds the header
requests — part_000 lines 305-310 never read the header. -/
theorem darktrace_429_ignores_retry_after_cex :
    Darktrace.sleep429 (RAHeader.numeric 5) = 60 ∧
    Darktrace.sleep429 (RAHeader.numeric 5) ≠ 5 := by
  decide

/-- C7 amended: on a 429 the abnormal-security executor honors a nonzero
numeric `Retry-After` as seconds and an HTTP-date `Retry-After` as an
absolute deadline, sleeping 60 seconds when the header is absent or
malformed; the darktrace executor always sleeps 60 seconds regardless of the
header; and the abnormal-security retry loop survives any number of
consecutive 429s before a 200, with no attempt cap. -/
theorem retry_backoff_policy (n t now : Int) (h : RAHeader) (k : Nat) (hn : n ≠ 0) :
    AbnormalSecurity.sleep429 (RAHeader.numeric n) now = n ∧
    AbnormalSecurity.sleep429 (RAHeader.date t) now = t - now ∧
    AbnormalSecurity.sleep429 RAHeader.absent now = 60 ∧
    AbnormalSecurity.sleep429 RAHeader.malformed now = 60 ∧
    Darktrace.sleep429 h = 60 ∧
    AbnormalSecurity.doWithRetry
        (List.replicate k (HttpOutcome.status429 h) ++ [HttpOutcome.ok200good]) =
      some (Except.ok ()) := by
  refine ⟨?_, rfl, rfl, rfl, rfl, ?_⟩
  · simp [AbnormalSecurity.sleep429, AbnormalSecurity.retryAfterState, hn]
  · induction k with
    | zero => rfl
    | succ m ih => simpa [List.replicate_succ, AbnormalSecurity.doWithRetry] using ih

/-- Witness for the C7 amended theorem at concrete header values and a
three-429 burst. -/
theorem retry_backoff_policy_witness :
    AbnormalSecurity.sleep429 (RAHeader.numeric 5) 40 = 5 ∧
    AbnormalSecurity.sleep429 (RAHeader.date 100) 40 = 60 ∧
    AbnormalSecurity.sleep429 RAHeader.absent 40 = 60 ∧
    AbnormalSecurity.sleep429 RAHeader.malformed 40 = 60 ∧
    Darktrace.sleep429 (RAHeader.numeric 5) = 60 ∧
    AbnormalSecurity.doWithRetry
        (List.replicate 3 (HttpOutcome.status429 (RAHeader.numeric 5)) ++
          [HttpOutcome.ok200good]) =
      some (Except.ok ()) :=
  retry_backoff_policy 5 100 40 (RAHeader.numeric 5) 3 (by decide)

/-- C8 counterexample: an abnormal-security config with a valid access token
but an EMPTY base URL passes `Validate` — the empty base URL is silently
replaced by the default rather than failing construction (client.go lines
112-114). -/
theorem abn_empty_base_url_ok_cex :
    AbnormalSecurity.Validate { accessToken := "tok", baseURL := "", clientOptionsOk := true } =
      Except.ok { accessToken := "tok", baseURL := defaultBaseURL, clientOptionsOk := true } :=
  rfl

/-- C8 amended: a missing credential (access token, public token or private
token) fails construction before polling starts, and a missing base URL fails
construction for darktrace; for abnormal-security an empty base URL is
defaulted and construction succeeds. -/
theorem validate_credentials_required (a : AbnConfig) (d : DtConfig) (u : Bool)
    (hao : a.clientOptionsOk = true) (hdo : d.clientOptionsOk = true) :
    (a.accessToken = "" →
      AbnormalSecurity.Validate a = Except.error "missing access token" ∧
      AbnormalSecurity.NewAdapterStartsPolling a u = false) ∧
    (d.url = "" → Darktrace.Validate d = Except.error "missing url") ∧
    (d.url ≠ "" → d.publicToken = "" →
      Darktrace.Validate d = Except.error "missing public token") ∧
    (d.url ≠ "" → d.publicToken ≠ "" → d.privateToken = "" →
      Darktrace.Validate d = Except.error "missing private token") ∧
    (a.accessToken ≠ "" → a.baseURL = "" →
      AbnormalSecurity.Validate a = Except.ok { a with baseURL := defaultBaseURL }) := by
  refine ⟨?_, ?_, ?_, ?_, ?_⟩
  · intro h1
    have hv : AbnormalSecurity.Validate a = Except.error "missing access token" := by
      simp [AbnormalSecurity.Validate, hao, h1]
    exact ⟨hv, by simp [AbnormalSecurity.NewAdapterStartsPolling, hv]⟩
  · intro h1
    simp [Darktrace.Validate, hdo, h1]
  · intro h1 h2
    simp [Darktrace.Validate, hdo, h1, h2]
  · intro h1 h2 h3
    simp [Darktrace.Validate, hdo, h1, h2, h3]
  · intro h1 h2
    simp [AbnormalSecurity.Validate, hao, h1, h2]

/-- Witness for the C8 amended theorem: an empty access token is rejected and
polling never starts. -/
theorem validate_credentials_required_witness :
    AbnormalSecurity.Validate { accessToken := "", baseURL := "x", clientOptionsOk := true } =
        Except.error "missing access token" ∧
    AbnormalSecurity.NewAdapterStartsPolling
        { accessToken := "", baseURL := "x", clientOptionsOk := true } true = false :=
  (validate_credentials_required { accessToken := "", baseURL := "x", clientOptionsOk := true }
    { url := "u", publicToken := "p", privateToken := "q", clientOptionsOk := true }
    true rfl rfl).1 rfl

/-- C9 counterexample: the abnormal-security walk admits an event whose
occurrence-time parses to 100 and stores 100 — the event's occurrence-time —
as the dedupe value (client.go line 465 stores `parsedTime.Unix()`); no
wall-clock reading enters this code path at all. -/
theorem abn_dedupe_stores_occurrence_time_cex :
    AbnormalSecurity.getEvents (fun s => if s == "T" then some 100 else none)
        "campaignId" "receivedTime" 0 []
        [Except.ok { dicts := [[("campaignId", GoValue.vStr "A"),
                                ("receivedTime", GoValue.vStr "T")]],
                     hasNextPage := false }] =
      some { items := [[("campaignId", GoValue.vStr "A"),
                        ("receivedTime", GoValue.vStr "T")]],
             newSince := 100, dedupe := [("A", 100)], err := false } ∧
    eventTimeOf (fun s => if s == "T" then some 100 else none) "receivedTime"
        [("campaignId", GoValue.vStr "A"), ("receivedTime", GoValue.vStr "T")] = some 100 :=
  ⟨rfl, rfl⟩

/-- C9 amended: on admission, the darktrace walker inserts the current
wall-clock time into the dedupe cache, while the abnormal-security walker
inserts the event's parsed occurrence-time. -/
theorem dedupe_insert_times (parseTime : String → Option Int) (idField timeField : String)
    (since now : Int) (st : PageState) (event : Event) (id ts : String) (t : Int)
    (hidA : AbnormalSecurity.determineId idField event = some id)
    (hidD : lookupField event idField = some (GoValue.vStr id))
    (hts : lookupField event timeField = some (GoValue.vStr ts))
    (hseen : st.dedupe.lookup id = none)
    (hp : parseTime ts = some t) (hlt : since < t) :
    (AbnormalSecurity.processEvent parseTime idField timeField since st event).dedupe =
      (id, t) :: st.dedupe ∧
    (Darktrace.processEvent parseTime idField timeField since now st event).dedupe =
      (id, now) :: st.dedupe := by
  constructor
  · simp [AbnormalSecurity.processEvent, hidA, hts, hseen, hp, hlt]
  · simp [Darktrace.processEvent, hidD, hts, hseen, hp, hlt]

/-- Witness for the C9 amended theorem at a concrete admission. -/
theorem dedupe_insert_times_witness :
    (AbnormalSecurity.processEvent (fun s => if s == "T" then some 100 else none)
        "campaignId" "receivedTime" 0 { dedupe := [], newItems := [], last := 0 }
        [("campaignId", GoValue.vStr "A"), ("receivedTime", GoValue.vStr "T")]).dedupe =
      [("A", 100)] ∧
    (Darktrace.processEvent (fun s => if s == "T" then some 100 else none)
        "campaignId" "receivedTime" 0 777 { dedupe := [], newItems := [], last := 0 }
        [("campaignId", GoValue.vStr "A"), ("receivedTime", GoValue.vStr "T")]).dedupe =
      [("A", 777)] :=
  dedupe_insert_times (fun s => if s == "T" then some 100 else none)
    "campaignId" "receivedTime" 0 777 { dedupe := [], newItems := [], last := 0 }
    [("campaignId", GoValue.vStr "A"), ("receivedTime", GoValue.vStr "T")]
    "A" "T" 100 rfl rfl rfl rfl rfl (by decide)

/-- C10: a first `Ship` failure other than the buffer-full signal is silently
skipped — exactly one call with the 10-second bound, no warning, no error
callback, no shutdown — and the batch loop continues with the next event;
`Close` is triggered if and only if the first call fails with buffer-full AND
the second, 1-hour call also fails. -/
theorem submit_skip_other_and_close_iff {α : Type} (ship : α → Int → Option ShipErr)
    (e : α) (rest : List α) (hother : ship e 10 = some ShipErr.other) :
    submitOne (ship e) = { waits := [10], warned := false, erroredCb := false, closed := false } ∧
    submitEvents ship (e :: rest) = submitEvents ship rest ∧
    (∀ f : Int → Option ShipErr,
      ((submitOne f).closed = true ↔ (f 10 = some ShipErr.bufferFull ∧ f 3600 ≠ none))) := by
  refine ⟨by simp [submitOne, hother], by simp [submitEvents, submitOne, hother], ?_⟩
  intro f
  cases hf : f 10 with
  | none => simp [submitOne, hf]
  | some err =>
    cases err with
    | bufferFull =>
      cases hf2 : f 3600 with
      | none => simp [submitOne, hf, hf2]
      | some e2 => simp [submitOne, hf, hf2]
    | other => simp [submitOne, hf]

/-- Witness for C10: a non-buffer-full first failure leaves a single
10-second attempt and no shutdown. -/
theorem submit_skip_other_and_close_iff_witness :
    submitOne (fun (_ : Int) => some ShipErr.other) =
      { waits := [10], warned := false, erroredCb := false, closed := false } :=
  (submit_skip_other_and_close_iff (fun (_ : Unit) (_ : Int) => some ShipErr.other)
    () [] rfl).1
/-- Helper: one abnormal-security filtering step preserves the walk
invariant. -/
theorem processEvent_walkInv (parseTime : String → Option Int)
    (idField timeField : String) (since : Int) (st : PageState) (event : Event)
    (h : WalkInv parseTime timeField since st) :
    WalkInv parseTime timeField since
      (AbnormalSecurity.processEvent parseTime idField timeField since st event) := by
  obtain ⟨h1, h2, h3, h4⟩ := h
  unfold AbnormalSecurity.processEvent
  split
  · exact ⟨h1, h2, h3, h4⟩
  next id hid =>
    split
    next timeStr hts =>
      split
      · split
        · exact ⟨h1, h2, h3, h4⟩
        next t hp =>
          split
          next hlt =>
            have hev : eventTimeOf parseTime timeField event = some t := by
              simp [eventTimeOf, hts, hp]
            refine ⟨?_, ?_, ?_, ?_⟩
            · by_cases hc : st.last < t
              · simpa [hc] using (h1.trans hc.le)
              · simpa [hc] using h1
            · intro habs
              simp at habs
            · intro _
              by_cases hc : st.last < t
              · exact ⟨event, by simp, by simp [hc, hev]⟩
              · have hne : st.newItems ≠ [] := by
                  intro h0
                  rw [h2 h0] at hc
                  exact hc hlt
                obtain ⟨e0, he0, ht0⟩ := h3 hne
                exact ⟨e0, by simp [he0], by simp [hc, ht0]⟩
            · intro e' he' t' ht'
              rcases List.mem_append.mp he' with hmem | hmem
              · have hb := h4 e' hmem t' ht'
                by_cases hc : st.last < t
                · simp only [hc, if_true]
                  exact hb.trans hc.le
                · simpa [hc] using hb
              · have heq : e' = event := by simpa using hmem
                subst heq
                rw [hev] at ht'
                have heqt : t = t' := by injection ht'
                subst heqt
                by_cases hc : st.last < t
                · simp [hc]
                · simpa [hc] using le_of_not_lt hc
          · exact ⟨h1, h2, h3, h4⟩
      · exact ⟨h1, h2, h3, h4⟩
    · exact ⟨h1, h2, h3, h4⟩

/-- Helper: folding a page's events preserves the walk invariant. -/
theorem foldl_walkInv (parseTime : String → Option Int)
    (idField timeField : String) (since : Int) (l : List Event) :
    ∀ st : PageState, WalkInv parseTime timeField since st →
      WalkInv parseTime timeField since
        (l.foldl (AbnormalSecurity.processEvent parseTime idField timeField since) st) := by
  induction l with
  | nil => intro st h; exact h
  | cons e l ih =>
    intro st h
    exact ih _ (processEvent_walkInv parseTime idField timeField since st e h)

/-- Helper: a successful page loop yields a watermark that is at least the
input watermark, equal to it when nothing was admitted, and otherwise the
maximum parsed occurrence-time among admitted events. -/
theorem getEventsGo_walkInv (parseTime : String → Option Int)
    (idField timeField : String) (since : Int) :
    ∀ (rs : List (Except Unit Page)) (st : PageState) (r : WalkResult),
      WalkInv parseTime timeField since st →
      AbnormalSecurity.getEventsGo parseTime idField timeField since rs st = some r →
      r.err = false →
      (since ≤ r.newSince ∧ (r.items = [] → r.newSince = since) ∧
        (r.items ≠ [] → ∃ e, e ∈ r.items ∧ eventTimeOf parseTime timeField e = some r.newSince) ∧
        (∀ e ∈ r.items, ∀ t, eventTimeOf parseTime timeField e = some t → t ≤ r.newSince)) := by
  intro rs
  induction rs with
  | nil =>
    intro st r _ hr _
    simp [AbnormalSecurity.getEventsGo] at hr
  | cons x rest ih =>
    intro st r hinv hr herr
    cases x with
    | error e =>
      simp [AbnormalSecurity.getEventsGo] at hr
      rw [← hr] at herr
      simp at herr
    | ok pg =>
      rw [AbnormalSecurity.getEventsGo] at hr
      by_cases hnp : pg.hasNextPage
      · rw [if_pos hnp] at hr
        exact ih _ r
          (foldl_walkInv parseTime idField timeField since pg.dicts st hinv) hr herr
      · rw [if_neg hnp] at hr
        injection hr with hr
        subst hr
        have hst' := foldl_walkInv parseTime idField timeField since pg.dicts st hinv
        exact hst'

/-- Helper: admitting an event (appending it with parsed occurrence-time `t`
after the watermark and advancing `lastDetectionTime` to the maximum)
preserves the walk invariant, whatever value the dedupe cache stores. -/
theorem admit_walkInv (parseTime : String → Option Int) (timeField : String)
    (since : Int) (st : PageState) (event : Event) (d : Dedupe) (t : Int)
    (hev : eventTimeOf parseTime timeField event = some t) (hlt : since < t)
    (h : WalkInv parseTime timeField since st) :
    WalkInv parseTime timeField since
      { dedupe := d, newItems := st.newItems ++ [event],
        last := if st.last < t then t else st.last } := by
  obtain ⟨h1, h2, h3, h4⟩ := h
  refine ⟨?_, ?_, ?_, ?_⟩
  · by_cases hc : st.last < t
    · simpa [hc] using (h1.trans hc.le)
    · simpa [hc] using h1
  · intro habs
    simp at habs
  · intro _
    by_cases hc : st.last < t
    · exact ⟨event, by simp, by simp [hc, hev]⟩
    · have hne : st.newItems ≠ [] := by
        intro h0
        rw [h2 h0] at hc
        exact hc hlt
      obtain ⟨e0, he0, ht0⟩ := h3 hne
      exact ⟨e0, by simp [he0], by simp [hc, ht0]⟩
  · intro e' he' t' ht'
    rcases List.mem_append.mp he' with hmem | hmem
    · have hb := h4 e' hmem t' ht'
      by_cases hc : st.last < t
      · simp only [hc, if_true]
        exact hb.trans hc.le
      · simpa [hc] using hb
    · have heq : e' = event := by simpa using hmem
      subst heq
      rw [hev] at ht'
      have heqt : t = t' := by injection ht'
      subst heqt
      by_cases hc : st.last < t
      · simp [hc]
      · simpa [hc] using le_of_not_lt hc

/-- Helper: one darktrace filtering step preserves the walk invariant. -/
theorem dtProcessEvent_walkInv (parseTime : String → Option Int)
    (idField timeField : String) (since now : Int) (st : PageState) (event : Event)
    (h : WalkInv parseTime timeField since st) :
    WalkInv parseTime timeField since
      (Darktrace.processEvent parseTime idField timeField since now st event) := by
  cases hid : lookupField event idField with
  | none =>
    have hstep : Darktrace.processEvent parseTime idField timeField since now st event
        = st := by simp [Darktrace.processEvent, hid]
    rw [hstep]; exact h
  | some v =>
    cases v with
    | vOther =>
      have hstep : Darktrace.processEvent parseTime idField timeField since now st event
          = st := by simp [Darktrace.processEvent, hid]
      rw [hstep]; exact h
    | vStr id =>
      cases hts : lookupField event timeField with
      | none =>
        have hstep : Darktrace.processEvent parseTime idField timeField since now st event
            = st := by simp [Darktrace.processEvent, hid, hts]
        rw [hstep]; exact h
      | some w =>
        cases w with
        | vOther =>
          have hstep : Darktrace.processEvent parseTime idField timeField since now st event
              = st := by simp [Darktrace.processEvent, hid, hts]
          rw [hstep]; exact h
        | vStr ts =>
          by_cases hseen : st.dedupe.lookup id = none
          · cases hp : parseTime ts with
            | none =>
              have hstep : Darktrace.processEvent parseTime idField timeField since now st event
                  = st := by simp [Darktrace.processEvent, hid, hts, hseen, hp]
              rw [hstep]; exact h
            | some t =>
              by_cases hlt : since < t
              · have hstep : Darktrace.processEvent parseTime idField timeField since now st event
                    = { dedupe := (id, now) :: st.dedupe, newItems := st.newItems ++ [event],
                        last := if st.last < t then t else st.last } := by
                  simp [Darktrace.processEvent, hid, hts, hseen, hp, hlt]
                rw [hstep]
                exact admit_walkInv parseTime timeField since st event ((id, now) :: st.dedupe) t
                  (by simp [eventTimeOf, hts, hp]) hlt h
              · have hstep : Darktrace.processEvent parseTime idField timeField since now st event
                    = st := by simp [Darktrace.processEvent, hid, hts, hseen, hp, hlt]
                rw [hstep]; exact h
          · have hfalse : (st.dedupe.lookup id).isNone = false := by
              cases hb : st.dedupe.lookup id with
              | none => exact absurd hb hseen
              | some u => rfl
            have hstep : Darktrace.processEvent parseTime idField timeField since now st event
                = st := by simp [Darktrace.processEvent, hid, hts, hfalse]
            rw [hstep]; exact h

/-- Helper: folding the darktrace filter over a response's events preserves
the walk invariant. -/
theorem dtFoldl_walkInv (parseTime : String → Option Int)
    (idField timeField : String) (since now : Int) (l : List Event) :
    ∀ st : PageState, WalkInv parseTime timeField since st →
      WalkInv parseTime timeField since
        (l.foldl (Darktrace.processEvent parseTime idField timeField since now) st) := by
  induction l with
  | nil => intro st h; exact h
  | cons e l ih =>
    intro st h
    exact ih _ (dtProcessEvent_walkInv parseTime idField timeField since now st e h)

/-- C5: for BOTH sources a successful walk returns a watermark that is at
least the input watermark, equals it when no event was admitted, and equals
the maximum parsed occurrence-time over the admitted events otherwise (never
past the true maximum seen); and the scheduler's stored watermark never
decreases across any cycle — for the abnormal-security walk through
`updateSince` on any (possibly errored) result, and for the darktrace walk on
both its successful and its errored form. -/
theorem watermark_monotone_and_max (parseTime : String → Option Int)
    (idField timeField : String) (since now : Int) (dedupe0 dedupe0D : Dedupe)
    (rs : List (Except Unit Page)) (events : List Event) (r : WalkResult)
    (hw : AbnormalSecurity.getEvents parseTime idField timeField since dedupe0 rs = some r) :
    (r.err = false →
      since ≤ r.newSince ∧ (r.items = [] → r.newSince = since) ∧
      (r.items ≠ [] → ∃ e, e ∈ r.items ∧ eventTimeOf parseTime timeField e = some r.newSince) ∧
      (∀ e ∈ r.items, ∀ t, eventTimeOf parseTime timeField e = some t → t ≤ r.newSince)) ∧
    since ≤ updateSince since r ∧
    since ≤ (Darktrace.getEvents parseTime idField timeField since now dedupe0D
        (Except.ok events)).newSince ∧
    ((Darktrace.getEvents parseTime idField timeField since now dedupe0D
        (Except.ok events)).items = [] →
      (Darktrace.getEvents parseTime idField timeField since now dedupe0D
        (Except.ok events)).newSince = since) ∧
    ((Darktrace.getEvents parseTime idField timeField since now dedupe0D
        (Except.ok events)).items ≠ [] →
      ∃ e, e ∈ (Darktrace.getEvents parseTime idField timeField since now dedupe0D
          (Except.ok events)).items ∧
        eventTimeOf parseTime timeField e =
          some (Darktrace.getEvents parseTime idField timeField since now dedupe0D
            (Except.ok events)).newSince) ∧
    (∀ e ∈ (Darktrace.getEvents parseTime idField timeField since now dedupe0D
        (Except.ok events)).items, ∀ t, eventTimeOf parseTime timeField e = some t →
      t ≤ (Darktrace.getEvents parseTime idField timeField since now dedupe0D
        (Except.ok events)).newSince) ∧
    since ≤ updateSince since
      (Darktrace.getEvents parseTime idField timeField since now dedupe0D
        (Except.ok events)) ∧
    since ≤ updateSince since
      (Darktrace.getEvents parseTime idField timeField since now dedupe0D
        (Except.error ())) := by
  have hinv0 : WalkInv parseTime timeField since
      { dedupe := dedupe0, newItems := [], last := since } := by
    refine ⟨le_refl _, fun _ => rfl, fun h => absurd rfl h, ?_⟩
    intro e he
    simp at he
  have hinv0D : WalkInv parseTime timeField since
      { dedupe := dedupe0D, newItems := [], last := since } := by
    refine ⟨le_refl _, fun _ => rfl, fun h => absurd rfl h, ?_⟩
    intro e he
    simp at he
  obtain ⟨g1, g2, g3, g4⟩ := dtFoldl_walkInv parseTime idField timeField since now events
    { dedupe := dedupe0D, newItems := [], last := since } hinv0D
  unfold AbnormalSecurity.getEvents at hw
  cases hraw : AbnormalSecurity.getEventsRaw parseTime idField timeField since dedupe0 rs with
  | none => rw [hraw] at hw; simp at hw
  | some raw =>
    rw [hraw] at hw
    rw [Option.map_some'] at hw
    injection hw with hw
    subst hw
    have hmain := getEventsGo_walkInv parseTime idField timeField since rs
      { dedupe := dedupe0, newItems := [], last := since } raw hinv0 hraw
    refine ⟨?_, ?_, g1, g2, g3, g4, g1, le_refl since⟩
    · intro herr
      exact hmain herr
    · by_cases he : raw.err = true
      · simp [updateSince, he]
      · have herr : raw.err = false := by
          cases hb : raw.err
          · rfl
          · exact absurd hb he
        have := (hmain herr).1
        simpa [updateSince, herr] using this

/-- Witness for C5 at concrete successful one-event walks of both sources. -/
theorem watermark_monotone_and_max_witness :
    (0 : Int) ≤ updateSince 0
      { items := [[("campaignId", GoValue.vStr "B"), ("receivedTime", GoValue.vStr "T")]],
        newSince := 10, dedupe := [("B", 10)], err := false } ∧
    (0 : Int) ≤ (Darktrace.getEvents (fun s => if s == "T" then some 10 else none)
        "id" "detectiontime" 0 50 []
        (Except.ok [[("id", GoValue.vStr "D"), ("detectiontime", GoValue.vStr "T")]])).newSince :=
  ⟨(watermark_monotone_and_max (fun s => if s == "T" then some 10 else none)
      "campaignId" "receivedTime" 0 50 [] []
      [Except.ok { dicts := [[("campaignId", GoValue.vStr "B"),
                              ("receivedTime", GoValue.vStr "T")]],
                   hasNextPage := false }]
      []
      { items := [[("campaignId", GoValue.vStr "B"), ("receivedTime", GoValue.vStr "T")]],
        newSince := 10, dedupe := [("B", 10)], err := false } rfl).2.1,
   (watermark_monotone_and_max (fun s => if s == "T" then some 10 else none)
      "id" "detectiontime" 0 50 [] []
      [Except.ok { dicts := [[("id", GoValue.vStr "D"),
                              ("detectiontime", GoValue.vStr "T")]],
                   hasNextPage := false }]
      [[("id", GoValue.vStr "D"), ("detectiontime", GoValue.vStr "T")]]
      { items := [[("id", GoValue.vStr "D"), ("detectiontime", GoValue.vStr "T")]],
        newSince := 10, dedupe := [("D", 10)], err := false } rfl).2.2.1⟩

/-- C4: given an event whose time field holds a string, each adapter's
per-event filter changes the walk state — i.e. admits the event — iff the
identifier is absent from the dedupe cache and the parsed occurrence-time is
strictly after the input watermark (so a time equal to the watermark is never
admitted); on admission the event is appended to the result set, its
identifier is inserted into the dedupe cache (abnormal-security stores the
parsed time, darktrace the wall clock) and `lastDetectionTime` advances to
the maximum. The first half covers the abnormal-security filter under its
identifier determination, the second the darktrace filter under its
string-typed identifier field. -/
theorem admission_iff_unseen_and_after (parseTime : String → Option Int)
    (idField timeField : String) (since now : Int) (st : PageState) (event : Event)
    (id ts : String)
    (hts : lookupField event timeField = some (GoValue.vStr ts)) :
    (AbnormalSecurity.determineId idField event = some id →
      (AbnormalSecurity.processEvent parseTime idField timeField since st event ≠ st ↔
        (st.dedupe.lookup id = none ∧ ∃ t, parseTime ts = some t ∧ since < t)) ∧
      (∀ t, st.dedupe.lookup id = none → parseTime ts = some t → since < t →
        AbnormalSecurity.processEvent parseTime idField timeField since st event =
          { dedupe := (id, t) :: st.dedupe, newItems := st.newItems ++ [event],
            last := if st.last < t then t else st.last })) ∧
    (lookupField event idField = some (GoValue.vStr id) →
      (Darktrace.processEvent parseTime idField timeField since now st event ≠ st ↔
        (st.dedupe.lookup id = none ∧ ∃ t, parseTime ts = some t ∧ since < t)) ∧
      (∀ t, st.dedupe.lookup id = none → parseTime ts = some t → since < t →
        Darktrace.processEvent parseTime idField timeField since now st event =
          { dedupe := (id, now) :: st.dedupe, newItems := st.newItems ++ [event],
            last := if st.last < t then t else st.last })) := by
  constructor
  · intro hid
    by_cases hseen : st.dedupe.lookup id = none
    · cases hp : parseTime ts with
      | none =>
        have hstep : AbnormalSecurity.processEvent parseTime idField timeField since st event
            = st := by
          simp [AbnormalSecurity.processEvent, hid, hts, hseen, hp]
        refine ⟨?_, ?_⟩
        · rw [hstep]
          simp
        · intro t _ hp' _
          exact absurd hp' (by simp)
      | some t =>
        by_cases hlt : since < t
        · have hstep : AbnormalSecurity.processEvent parseTime idField timeField since st event
              = { dedupe := (id, t) :: st.dedupe, newItems := st.newItems ++ [event],
                  last := if st.last < t then t else st.last } := by
            simp [AbnormalSecurity.processEvent, hid, hts, hseen, hp, hlt]
          refine ⟨?_, ?_⟩
          · rw [hstep]
            constructor
            · intro _
              exact ⟨hseen, t, rfl, hlt⟩
            · intro _ habs
              have := congrArg PageState.newItems habs
              simp at this
          · intro t' _ hp' _
            have heq : t = t' := by injection hp'
            subst heq
            exact hstep
        · have hstep : AbnormalSecurity.processEvent parseTime idField timeField since st event
              = st := by
            simp [AbnormalSecurity.processEvent, hid, hts, hseen, hp, hlt]
          refine ⟨?_, ?_⟩
          · rw [hstep]
            simp [hseen, hlt]
          · intro t' _ hp' hlt'
            have heq : t = t' := by injection hp'
            subst heq
            exact absurd hlt' hlt
    · have hfalse : (st.dedupe.lookup id).isNone = false := by
        cases hb : st.dedupe.lookup id with
        | none => exact absurd hb hseen
        | some v => rfl
      have hstep : AbnormalSecurity.processEvent parseTime idField timeField since st event
          = st := by
        simp [AbnormalSecurity.processEvent, hid, hts, hfalse]
      refine ⟨?_, ?_⟩
      · rw [hstep]
        simp [hseen]
      · intro t hn _ _
        exact absurd hn hseen
  · intro hidD
    by_cases hseen : st.dedupe.lookup id = none
    · cases hp : parseTime ts with
      | none =>
        have hstep : Darktrace.processEvent parseTime idField timeField since now st event
            = st := by
          simp [Darktrace.processEvent, hidD, hts, hseen, hp]
        refine ⟨?_, ?_⟩
        · rw [hstep]
          simp
        · intro t _ hp' _
          exact absurd hp' (by simp)
      | some t =>
        by_cases hlt : since < t
        · have hstep : Darktrace.processEvent parseTime idField timeField since now st event
              = { dedupe := (id, now) :: st.dedupe, newItems := st.newItems ++ [event],
                  last := if st.last < t then t else st.last } := by
            simp [Darktrace.processEvent, hidD, hts, hseen, hp, hlt]
          refine ⟨?_, ?_⟩
          · rw [hstep]
            constructor
            · intro _
              exact ⟨hseen, t, rfl, hlt⟩
            · intro _ habs
              have := congrArg PageState.newItems habs
              simp at this
          · intro t' _ hp' _
            have heq : t = t' := by injection hp'
            subst heq
            exact hstep
        · have hstep : Darktrace.processEvent parseTime idField timeField since now st event
              = st := by
            simp [Darktrace.processEvent, hidD, hts, hseen, hp, hlt]
          refine ⟨?_, ?_⟩
          · rw [hstep]
            simp [hseen, hlt]
          · intro t' _ hp' hlt'
            have heq : t = t' := by injection hp'
            subst heq
            exact absurd hlt' hlt
    · have hfalse : (st.dedupe.lookup id).isNone = false := by
        cases hb : st.dedupe.lookup id with
        | none => exact absurd hb hseen
        | some v => rfl
      have hstep : Darktrace.processEvent parseTime idField timeField since now st event
          = st := by
        simp [Darktrace.processEvent, hidD, hts, hfalse]
      refine ⟨?_, ?_⟩
      · rw [hstep]
        simp [hseen]
      · intro t hn _ _
        exact absurd hn hseen

/-- Witness for C4 at a concrete admission in both adapters: time 10 is after
watermark 0 and the id "C" is unseen, so each filter admits the event with
its expected state change (abnormal-security stores the parsed time 10,
darktrace the wall clock 777). -/
theorem admission_iff_unseen_and_after_witness :
    AbnormalSecurity.processEvent (fun s => if s == "T" then some 10 else none)
        "campaignId" "receivedTime" 0 { dedupe := [], newItems := [], last := 0 }
        [("campaignId", GoValue.vStr "C"), ("receivedTime", GoValue.vStr "T")] =
      { dedupe := [("C", 10)],
        newItems := [[("campaignId", GoValue.vStr "C"), ("receivedTime", GoValue.vStr "T")]],
        last := if (0 : Int) < 10 then 10 else 0 } ∧
    Darktrace.processEvent (fun s => if s == "T" then some 10 else none)
        "campaignId" "receivedTime" 0 777 { dedupe := [], newItems := [], last := 0 }
        [("campaignId", GoValue.vStr "C"), ("receivedTime", GoValue.vStr "T")] =
      { dedupe := [("C", 777)],
        newItems := [[("campaignId", GoValue.vStr "C"), ("receivedTime", GoValue.vStr "T")]],
        last := if (0 : Int) < 10 then 10 else 0 } :=
  ⟨((admission_iff_unseen_and_after (fun s => if s == "T" then some 10 else none)
      "campaignId" "receivedTime" 0 777 { dedupe := [], newItems := [], last := 0 }
      [("campaignId", GoValue.vStr "C"), ("receivedTime", GoValue.vStr "T")]
      "C" "T" rfl).1 rfl).2 10 rfl rfl (by decide),
   ((admission_iff_unseen_and_after (fun s => if s == "T" then some 10 else none)
      "campaignId" "receivedTime" 0 777 { dedupe := [], newItems := [], last := 0 }
      [("campaignId", GoValue.vStr "C"), ("receivedTime", GoValue.vStr "T")]
      "C" "T" rfl).2 rfl).2 10 rfl rfl (by decide)⟩

/-- C6 amended: the post-walk pruning pass removes exactly the dedupe entries
whose stored timestamp is strictly below the INPUT (pre-walk) watermark — for
abnormal-security with no grace period, for darktrace below the input
watermark minus one minute — and removes no other entry; the walk's final
dedupe cache is the pruned form of the cache the page loop left behind. -/
theorem prune_exactly_below_input_watermark (parseTime : String → Option Int)
    (idField timeField : String) (since : Int) (d0 d : Dedupe)
    (rs : List (Except Unit Page)) (raw : WalkResult) (k : String) (v : Int)
    (hraw : AbnormalSecurity.getEventsRaw parseTime idField timeField since d0 rs = some raw) :
    AbnormalSecurity.getEvents parseTime idField timeField since d0 rs =
      some { raw with dedupe := AbnormalSecurity.pruneDedupe since raw.dedupe } ∧
    ((k, v) ∈ AbnormalSecurity.pruneDedupe since raw.dedupe ↔
      ((k, v) ∈ raw.dedupe ∧ since ≤ v)) ∧
    ((k, v) ∈ Darktrace.pruneDedupe since d ↔ ((k, v) ∈ d ∧ since - 60000 ≤ v)) := by
  refine ⟨?_, ?_, ?_⟩
  · unfold AbnormalSecurity.getEvents
    rw [hraw]
    rfl
  · simp [AbnormalSecurity.pruneDedupe, List.mem_filter, not_lt, and_comm]
  · simp [Darktrace.pruneDedupe, List.mem_filter, not_lt, and_comm]

/-- Witness for the C6 amended theorem at a concrete no-event walk: the entry
stamped 7 is at or above the input watermark 5 and survives the prune. -/
theorem prune_exactly_below_input_watermark_witness :
    AbnormalSecurity.getEvents (fun _ => none) "i" "t" 5 [("a", 7)]
        [Except.ok { dicts := [], hasNextPage := false }] =
      some { items := [], newSince := 5, dedupe := [("a", 7)], err := false } ∧
    (("a", (7 : Int)) ∈ AbnormalSecurity.pruneDedupe 5 [("a", 7)] ↔
      (("a", (7 : Int)) ∈ ([("a", 7)] : Dedupe) ∧ (5 : Int) ≤ 7)) ∧
    (("a", (7 : Int)) ∈ Darktrace.pruneDedupe 5 [("b", 3)] ↔
      (("a", (7 : Int)) ∈ ([("b", 3)] : Dedupe) ∧ (5 : Int) - 60000 ≤ 7)) :=
  prune_exactly_below_input_watermark (fun _ => none) "i" "t" 5 [("a", 7)] [("b", 3)]
    [Except.ok { dicts := [], hasNextPage := false }]
    { items := [], newSince := 5, dedupe := [("a", 7)], err := false } "a" 7 rfl
